import Mathlib

/-!
Verification of the parcel/project GeoJSON pipeline in `scripts/build_layers.py`.

The script is a linear batch pipeline: load a citywide parcel geometry file plus
an optional custom-parcel file (`load_parcels`), load and left-join two project
CSV tables (`load_projects_table`), inner-join parcels to project rows on the
parcel key (`main`), then dissolve non-custom rows by `project_id`, take convex
hulls, simplify, append custom rows, and split the combined layer by status/year
(`build_project_layer`).

The embedding below models the pandas/geopandas data frames as lists of records.
Library geometry operations that the script merely invokes are modelled at the
granularity the pipeline observes them:
  * a polygon is its boundary vertex list over `ℚ × ℚ`;
  * the dissolve union followed by `convex_hull` is recorded structurally by the
    `PGeom.hull` constructor and interpreted into `Set (ℝ × ℝ)` as the convex
    hull of all member vertices (`hullRegion`);
  * `GeoSeries.simplify(SIMPLIFY_TOL, preserve_topology=True)` is an opaque
    library transformation, so the pipeline is parametrised by a function
    `simplify : ℚ → PGeom → PGeom`;
  * `GeoDataFrame.to_crs(4326)` is likewise an opaque reprojection parameter.

File reads are modelled as `Except LoadError` inputs so that the loaders'
error-handling branches (the `try/except FileNotFoundError` around the custom
source, and the fatal primary read) can be stated.
-/

namespace BuildLayers

/-- A coordinate point (longitude, latitude), modelled over the rationals. -/
abbrev Pt : Type := ℚ × ℚ

/-- A polygon, represented by its boundary vertex list. -/
abbrev Poly : Type := List Pt

/-- Geometry of a feature as the pipeline manipulates it: either a polygon
passed through from the input (`poly`), or the convex hull of the union of a
list of polygons (`hull`), as produced by `dissolve` followed by
`GeoSeries.convex_hull`. -/
inductive PGeom : Type where
  | poly (vs : Poly)
  | hull (parts : List Poly)
deriving DecidableEq

/-- Embed a rational coordinate point in the real plane. -/
def ptR (p : Pt) : ℝ × ℝ := ((p.1 : ℝ), (p.2 : ℝ))

/-- The set of all vertices of a list of polygons, as real points. -/
def vertexSet (parts : List Poly) : Set (ℝ × ℝ) :=
  {x | ∃ g ∈ parts, ∃ v ∈ g, ptR v = x}

/-- The planar region of the convex hull of the union of the given polygons:
the convex hull of all their vertices.  This interprets the geometry obtained
from `non_custom.dissolve(by="project_id")` followed by
`dissolved.geometry.convex_hull`. -/
def hullRegion (parts : List Poly) : Set (ℝ × ℝ) :=
  convexHull ℝ (vertexSet parts)

/-- A record of the citywide (or custom) parcel GeoJSON: the key column `PIN`,
the address column `MAILTOADD`, the detail-link column `SDATLINK`, and the
parcel polygon. -/
structure Parcel : Type where
  pin : String
  mailtoadd : Option String
  sdatlink : Option String
  geometry : Poly
deriving DecidableEq

/-- A parcel file as read from disk, before normalization: its coordinate
reference system (EPSG code, when any) and its records. -/
structure RawParcelFile : Type where
  crsEpsg : Option Int
  rows : List Parcel
deriving DecidableEq

/-- Errors a pipeline run can abort with: `fileNotFound` models Python's
`FileNotFoundError`, `readFailure` any other error while reading a source, and
`mergeValidation` the pandas `MergeError` raised by `validate="m:1"`. -/
inductive LoadError : Type where
  | fileNotFound
  | readFailure
  | mergeValidation
deriving DecidableEq

/-- The fixed simplification tolerance `SIMPLIFY_TOL = 0.00005`. -/
def SIMPLIFY_TOL : ℚ := 5 / 100000

/-- Whitespace test used by the key normalization (pandas `str.strip`). -/
def isSpaceChar (c : Char) : Bool :=
  c = ' ' || c = '\t' || c = '\n' || c = '\r'

/-- Strip leading and trailing whitespace from a character list. -/
def trimChars (l : List Char) : List Char :=
  ((l.dropWhile isSpaceChar).reverse.dropWhile isSpaceChar).reverse

/-- Strip leading and trailing whitespace from a string, modelling
`.astype(str).str.strip()` applied to the parcel key column. -/
def strStrip (s : String) : String := ⟨trimChars s.data⟩

/-- Normalize one parcel source as `load_parcels` does: reproject to EPSG:4326
when the CRS is missing or differs (`to_crs`, modelled by the opaque
`reproject` parameter), then normalize the key column to trimmed strings. -/
def normalizeSource (reproject : List Parcel → List Parcel)
    (f : RawParcelFile) : List Parcel :=
  let rows := if f.crsEpsg = some 4326 then f.rows else reproject f.rows
  rows.map (fun p => { p with pin := strStrip p.pin })

/-- The `load_parcels` function: read the citywide source (fatal on any error),
then try to read the optional custom source; a `FileNotFoundError` there is
caught (the script logs and continues), any other custom-read error propagates.
On success the custom rows are appended to the citywide rows (`pd.concat`). -/
def load_parcels (reproject : List Parcel → List Parcel)
    (primarySrc customSrc : Except LoadError RawParcelFile) :
    Except LoadError (List Parcel) :=
  match primarySrc with
  | .error e => .error e
  | .ok pf =>
    let parcels := normalizeSource reproject pf
    match customSrc with
    | .ok cf => .ok (parcels ++ normalizeSource reproject cf)
    | .error .fileNotFound => .ok parcels
    | .error e => .error e

/-- A row of `project_parcels.csv`: the parcel↔project assignment table, all
key columns read as strings (`dtype` forces `str`). -/
structure Assignment : Type where
  parcel_id : String
  project_id : String
  project_status : Option String
  completed_year : Option String
deriving DecidableEq

/-- A row of `project_list.csv`: the project-metadata table. -/
structure ProjListRow : Type where
  project_id : String
  project_name : Option String
  project_link : Option String
deriving DecidableEq

/-- A row of the left join of the assignment table with the metadata table. -/
structure ProjRow : Type where
  parcel_id : String
  project_id : String
  project_status : Option String
  completed_year : Option String
  project_name : Option String
  project_link : Option String
deriving DecidableEq

/-- Left-join one assignment row with the metadata table on `project_id`:
the matching metadata row's fields when one exists, null fields otherwise. -/
def joinMeta (proj_list : List ProjListRow) (a : Assignment) : ProjRow :=
  match proj_list.find? (fun m => m.project_id == a.project_id) with
  | some m => ⟨a.parcel_id, a.project_id, a.project_status, a.completed_year,
               m.project_name, m.project_link⟩
  | none => ⟨a.parcel_id, a.project_id, a.project_status, a.completed_year,
             none, none⟩

/-- The `load_projects_table` function: merge the assignment table with the
project list on `project_id`, `how="left"` with `validate="m:1"`.  The
validation raises a `MergeError` when a `project_id` occurs more than once in
the metadata table; otherwise every assignment row is kept, joined to its
unique metadata match when one exists. -/
def load_projects_table (parcels_tbl : List Assignment)
    (proj_list : List ProjListRow) : Except LoadError (List ProjRow) :=
  if (proj_list.map (fun m => m.project_id)).Nodup then
    .ok (parcels_tbl.map (joinMeta proj_list))
  else
    .error .mergeValidation

/-- A row of `merged` in `main`: the inner join of a parcel with a project
row.  Both join columns (`PIN` and `parcel_id`) are kept, as pandas does for
distinct `left_on`/`right_on` column names. -/
structure MergedRow : Type where
  pin : String
  mailtoadd : Option String
  sdatlink : Option String
  geometry : Poly
  parcel_id : String
  project_id : String
  project_status : Option String
  completed_year : Option String
  project_name : Option String
  project_link : Option String
deriving DecidableEq

/-- Combine one parcel and one project row into a merged row. -/
def mkMergedRow (p : Parcel) (a : ProjRow) : MergedRow :=
  ⟨p.pin, p.mailtoadd, p.sdatlink, p.geometry, a.parcel_id, a.project_id,
   a.project_status, a.completed_year, a.project_name, a.project_link⟩

/-- The Reconciler: `main`'s `parcels.merge(project_data, left_on=PIN,
right_on="parcel_id", how="inner")`.  One output row per (parcel, project row)
pair whose keys agree, in left-row order with ties in right-row order. -/
def reconcile (parcels : List Parcel) (project_data : List ProjRow) :
    List MergedRow :=
  parcels.flatMap (fun p =>
    (project_data.filter (fun a => a.parcel_id == p.pin)).map (mkMergedRow p))

/-- String suffix test on the underlying character lists, modelling
`Series.str.endswith`. -/
def strEndsWith (s t : String) : Bool :=
  s.data.drop (s.data.length - t.data.length) == t.data

/-- The custom-row predicate of `build_project_layer`: the parcel key ends
with the `CUST` marker. -/
def isCustomRow (r : MergedRow) : Bool := strEndsWith r.pin "CUST"

/-- The non-custom side of the split `merged[~mask_custom]`. -/
def nonCustomRows (merged : List MergedRow) : List MergedRow :=
  merged.filter (fun r => !isCustomRow r)

/-- The custom side of the split `merged[mask_custom]`. -/
def customRows (merged : List MergedRow) : List MergedRow :=
  merged.filter isCustomRow

/-- First non-null value of a column, the pandas `"first"` group aggregation
(`skipna` semantics: null entries are passed over). -/
def firstSome : List (Option String) → Option String
  | [] => none
  | some v :: _ => some v
  | none :: rest => firstSome rest

/-- Lexicographic comparison of character lists, used to model the sorted
group-key order of `groupby` (geopandas `dissolve` keeps its default
`sort=True`). -/
def charListLe : List Char → List Char → Bool
  | [], _ => true
  | _ :: _, [] => false
  | a :: as, b :: bs => if a = b then charListLe as bs else decide (a < b)

/-- Lexicographic comparison of strings. -/
def strLe (a b : String) : Bool := charListLe a.data b.data

/-- Insert an element into a list assumed sorted by `le`. -/
def insSorted (le : String → String → Bool) (a : String) :
    List String → List String
  | [] => [a]
  | b :: bs => if le a b then a :: b :: bs else b :: insSorted le a bs

/-- Insertion sort by `le`. -/
def sortKeys (le : String → String → Bool) : List String → List String
  | [] => []
  | a :: as => insSorted le a (sortKeys le as)

/-- The distinct `project_id` group keys of `dissolve(by="project_id")`, in
sorted order (one group per distinct key). -/
def projectKeys (rows : List MergedRow) : List String :=
  sortKeys strLe ((rows.map (fun r => r.project_id)).dedup)

/-- The rows of one dissolve group, in their original (encounter) order:
`groupby` preserves the relative order of rows inside each group. -/
def groupRows (rows : List MergedRow) (k : String) : List MergedRow :=
  rows.filter (fun r => r.project_id == k)

/-- An output feature of the per-project layer: the `keep` columns plus
geometry. -/
structure ProjFeature : Type where
  project_id : String
  project_name : Option String
  project_link : Option String
  project_status : Option String
  completed_year : Option String
  geometry : PGeom
deriving DecidableEq

/-- The dissolve output row for one group key: every `keep` attribute is
aggregated with `"first"` (first non-null value in encounter order; for the
group key column itself that value is the key), and the group geometry is the
union of member geometries, to which `convex_hull` is then applied. -/
def dissolveFeature (rows : List MergedRow) (k : String) : ProjFeature :=
  { project_id := k
    project_name := firstSome ((groupRows rows k).map (fun r => r.project_name))
    project_link := firstSome ((groupRows rows k).map (fun r => r.project_link))
    project_status := firstSome ((groupRows rows k).map (fun r => r.project_status))
    completed_year := firstSome ((groupRows rows k).map (fun r => r.completed_year))
    geometry := PGeom.hull ((groupRows rows k).map (fun r => r.geometry)) }

/-- The dissolved per-project frame: one feature per distinct `project_id`. -/
def dissolveByProject (rows : List MergedRow) : List ProjFeature :=
  (projectKeys rows).map (dissolveFeature rows)

/-- A custom merged row carried into the per-project layer as-is: the `keep`
attributes together with the row's own input geometry. -/
def mkCustomFeature (r : MergedRow) : ProjFeature :=
  ⟨r.project_id, r.project_name, r.project_link, r.project_status,
   r.completed_year, PGeom.poly r.geometry⟩

/-- Apply the simplification call
`geometry.simplify(SIMPLIFY_TOL, preserve_topology=True)` to a feature. -/
def simplifyGeom (simplify : ℚ → PGeom → PGeom) (f : ProjFeature) :
    ProjFeature :=
  { f with geometry := simplify SIMPLIFY_TOL f.geometry }

/-- The combined per-project frame `gdf_combined`: the dissolved, hulled and
simplified non-custom features, followed by the custom rows appended as-is
(`pd.concat([gdf_non_custom, gdf_custom])`; note the script applies
`simplify` to `gdf_non_custom` only). -/
def combinedLayer (simplify : ℚ → PGeom → PGeom) (merged : List MergedRow) :
    List ProjFeature :=
  ((dissolveByProject (nonCustomRows merged)).map (simplifyGeom simplify))
    ++ (customRows merged).map mkCustomFeature

/-- Render an optional year column as pandas `astype(str)` does: a missing
value prints as the string `"nan"`. -/
def optYearStr : Option String → String
  | some s => s
  | none => "nan"

/-- The first split filter: `project_status == "Under Construction"` (a null
status compares unequal). -/
def isUnderConstruction (f : ProjFeature) : Bool :=
  f.project_status == some "Under Construction"

/-- The second split filter: `project_status == "Completed"` and
`completed_year.astype(str) == "2025"`. -/
def isCompleted2025 (f : ProjFeature) : Bool :=
  f.project_status == some "Completed" && optYearStr f.completed_year == "2025"

/-- The `build_project_layer` function, returning the two written layers
(`UNDER_CONSTRUCTION.geojson`, `COMPLETED_2025.geojson`) derived from the
combined per-project frame. -/
def build_project_layer (simplify : ℚ → PGeom → PGeom)
    (merged : List MergedRow) : List ProjFeature × List ProjFeature :=
  ((combinedLayer simplify merged).filter isUnderConstruction,
   (combinedLayer simplify merged).filter isCompleted2025)

/-- The `main` function: load parcels, load the project table, inner-join
them, and build the two per-project output layers.  These two layers are the
only outputs the script writes. -/
def main (reproject : List Parcel → List Parcel)
    (simplify : ℚ → PGeom → PGeom)
    (primarySrc customSrc : Except LoadError RawParcelFile)
    (parcels_tbl : List Assignment) (proj_list : List ProjListRow) :
    Except LoadError (List ProjFeature × List ProjFeature) := do
  let parcels ← load_parcels reproject primarySrc customSrc
  let project_data ← load_projects_table parcels_tbl proj_list
  let merged := reconcile parcels project_data
  pure (build_project_layer simplify merged)

/-- Lengths of the two layers of a pipeline result, `none` on an aborted
run. -/
def resultLengths (r : Except LoadError (List ProjFeature × List ProjFeature)) :
    Option (Nat × Nat) :=
  match r with
  | .ok out => some (out.1.length, out.2.length)
  | .error _ => none

/-! ### Helper lemmas -/

theorem insSorted_perm (le : String → String → Bool) (a : String)
    (l : List String) : List.Perm (insSorted le a l) (a :: l) := by
  induction l with
  | nil => simp [insSorted]
  | cons b bs ih =>
      cases hc : le a b with
      | true => simp [insSorted, hc]
      | false =>
          simp only [insSorted, hc, Bool.false_eq_true, if_false]
          exact (ih.cons b).trans (List.Perm.swap a b bs)

theorem sortKeys_perm (le : String → String → Bool) (l : List String) :
    List.Perm (sortKeys le l) l := by
  induction l with
  | nil => simp [sortKeys]
  | cons a as ih =>
      exact (insSorted_perm le a (sortKeys le as)).trans (ih.cons a)

theorem mem_sortKeys {le : String → String → Bool} {l : List String}
    {k : String} : k ∈ sortKeys le l ↔ k ∈ l :=
  (sortKeys_perm le l).mem_iff

theorem nodup_sortKeys {le : String → String → Bool} {l : List String}
    (h : l.Nodup) : (sortKeys le l).Nodup :=
  ((sortKeys_perm le l).nodup_iff).mpr h

theorem mem_projectKeys {rows : List MergedRow} {k : String} :
    k ∈ projectKeys rows ↔ k ∈ rows.map (fun r => r.project_id) := by
  unfold projectKeys
  rw [mem_sortKeys, List.mem_dedup]

theorem nodup_projectKeys (rows : List MergedRow) :
    (projectKeys rows).Nodup :=
  nodup_sortKeys (List.nodup_dedup _)

theorem countP_eq_ite_of_nodup (l : List String) (k : String) (h : l.Nodup) :
    l.countP (fun a => a == k) = if k ∈ l then 1 else 0 := by
  induction l with
  | nil => simp
  | cons a t ih =>
      rw [List.nodup_cons] at h
      rw [List.countP_cons, ih h.2]
      by_cases hak : a = k
      · subst hak
        have : a ∉ t := h.1
        simp [this]
      · simp [List.mem_cons, hak, Ne.symm hak, beq_iff_eq]

theorem countP_disjoint_add {α : Type} (p q : α → Bool) (l : List α)
    (h : ∀ a, ¬(p a = true ∧ q a = true)) :
    l.countP p + l.countP q = l.countP (fun x => p x || q x) := by
  induction l with
  | nil => simp
  | cons a t ih =>
      rw [List.countP_cons, List.countP_cons, List.countP_cons, ← ih]
      cases hp : p a with
      | true =>
          have hq : q a = false := by
            cases hqa : q a with
            | true => exact absurd ⟨hp, hqa⟩ (h a)
            | false => rfl
          simp only [hp, hq, Bool.true_or, if_true, Bool.false_eq_true, if_false]
          omega
      | false =>
          cases hq : q a with
          | true =>
              simp only [hp, hq, Bool.false_or, if_true, Bool.false_eq_true,
                if_false]
              omega
          | false =>
              simp only [hp, hq, Bool.false_or, Bool.false_eq_true, if_false]
              omega

theorem mem_reconcile {parcels : List Parcel} {project_data : List ProjRow}
    {r : MergedRow} :
    r ∈ reconcile parcels project_data ↔
      ∃ p ∈ parcels, ∃ a ∈ project_data,
        a.parcel_id = p.pin ∧ r = mkMergedRow p a := by
  unfold reconcile
  constructor
  · intro hr
    rcases List.mem_flatMap.mp hr with ⟨p, hp, hmem⟩
    rcases List.mem_map.mp hmem with ⟨a, ha, hra⟩
    rcases List.mem_filter.mp ha with ⟨hap, hkey⟩
    exact ⟨p, hp, a, hap, beq_iff_eq.mp hkey, hra.symm⟩
  · rintro ⟨p, hp, a, ha, hkey, rfl⟩
    refine List.mem_flatMap.mpr ⟨p, hp, List.mem_map.mpr ⟨a, ?_, rfl⟩⟩
    exact List.mem_filter.mpr ⟨ha, beq_iff_eq.mpr hkey⟩

theorem filter_key_length_le_one (project_data : List ProjRow) (k : String)
    (h : (project_data.map (fun a => a.parcel_id)).Nodup) :
    (project_data.filter (fun a => a.parcel_id == k)).length ≤ 1 := by
  induction project_data with
  | nil => simp
  | cons a t ih =>
      rw [List.map_cons, List.nodup_cons] at h
      rw [List.filter_cons]
      cases hk : (a.parcel_id == k) with
      | false =>
          simp only [Bool.false_eq_true, if_false]
          exact ih h.2
      | true =>
          simp only [if_true]
          have hkey : a.parcel_id = k := beq_iff_eq.mp hk
          have hnil : t.filter (fun b => b.parcel_id == k) = [] := by
            refine List.filter_eq_nil_iff.mpr ?_
            intro b hb hbk
            have hbkey : b.parcel_id = k := beq_iff_eq.mp hbk
            exact h.1 (List.mem_map.mpr ⟨b, hb, by rw [hbkey, hkey]⟩)
          rw [hnil]
          simp

theorem reconcile_cons (p : Parcel) (ps : List Parcel)
    (project_data : List ProjRow) :
    reconcile (p :: ps) project_data =
      (project_data.filter (fun a => a.parcel_id == p.pin)).map (mkMergedRow p)
        ++ reconcile ps project_data := by
  simp [reconcile]

theorem length_reconcile_le_parcels (parcels : List Parcel)
    (project_data : List ProjRow)
    (h : (project_data.map (fun a => a.parcel_id)).Nodup) :
    (reconcile parcels project_data).length ≤ parcels.length := by
  induction parcels with
  | nil => simp [reconcile]
  | cons p ps ih =>
      rw [reconcile_cons, List.length_append, List.length_map]
      have h1 := filter_key_length_le_one project_data p.pin h
      have h2 := ih
      simp only [List.length_cons]
      omega

theorem length_reconcile_le_assignments (parcels : List Parcel)
    (project_data : List ProjRow)
    (h : (parcels.map (fun p => p.pin)).Nodup) :
    (reconcile parcels project_data).length ≤ project_data.length := by
  have key : ∀ (ps : List Parcel), (ps.map (fun p => p.pin)).Nodup →
      (reconcile ps project_data).length ≤
        (project_data.filter
          (fun a => decide (a.parcel_id ∈ ps.map (fun p => p.pin)))).length := by
    intro ps
    induction ps with
    | nil => simp [reconcile]
    | cons p t ih =>
        intro hnd
        rw [List.map_cons, List.nodup_cons] at hnd
        rw [reconcile_cons, List.length_append, List.length_map]
        have hrec := ih hnd.2
        rw [← List.countP_eq_length_filter, ← List.countP_eq_length_filter]
        rw [← List.countP_eq_length_filter] at hrec
        have hdisj : ∀ a : ProjRow,
            ¬((a.parcel_id == p.pin) = true ∧
              (decide (a.parcel_id ∈ t.map (fun q => q.pin))) = true) := by
          intro a ⟨h1, h2⟩
          have e1 : a.parcel_id = p.pin := beq_iff_eq.mp h1
          have e2 : a.parcel_id ∈ t.map (fun q => q.pin) := of_decide_eq_true h2
          rw [e1] at e2
          exact hnd.1 e2
        have hadd := countP_disjoint_add (fun a => a.parcel_id == p.pin)
          (fun a => decide (a.parcel_id ∈ t.map (fun q => q.pin)))
          project_data hdisj
        beta_reduce at hadd
        have hcongr : project_data.countP
            (fun a => (a.parcel_id == p.pin) ||
              decide (a.parcel_id ∈ t.map (fun q => q.pin)))
            = project_data.countP
              (fun a => decide (a.parcel_id ∈ (p :: t).map (fun q => q.pin))) := by
          refine List.countP_congr ?_
          intro a _
          by_cases hmem : a.parcel_id ∈ (p :: t).map (fun q => q.pin)
          · rcases List.mem_cons.mp hmem with hc | hc
            · simp [hmem, hc]
            · simp [hmem, hc]
          · have h1 : a.parcel_id ≠ p.pin := fun hcontra => by
              exact hmem (by rw [List.map_cons]; exact List.mem_cons.mpr (Or.inl hcontra))
            have h2 : a.parcel_id ∉ t.map (fun q => q.pin) := fun hcontra => by
              exact hmem (by rw [List.map_cons]; exact List.mem_cons.mpr (Or.inr hcontra))
            simp [hmem, h1, h2]
        omega
  calc (reconcile parcels project_data).length
      ≤ (project_data.filter
          (fun a => decide (a.parcel_id ∈ parcels.map (fun p => p.pin)))).length :=
        key parcels h
    _ ≤ project_data.length := List.length_filter_le _ _

theorem find?_key_of_nodup (proj_list : List ProjListRow) (m : ProjListRow)
    (k : String) (h : (proj_list.map (fun x => x.project_id)).Nodup)
    (hm : m ∈ proj_list) (hk : m.project_id = k) :
    proj_list.find? (fun x => x.project_id == k) = some m := by
  induction proj_list with
  | nil => exact absurd hm (List.not_mem_nil m)
  | cons x t ih =>
      rw [List.map_cons, List.nodup_cons] at h
      rcases List.mem_cons.mp hm with rfl | hmt
      · have hpm : (fun x : ProjListRow => x.project_id == k) m = true :=
          beq_iff_eq.mpr hk
        rw [List.find?_cons_of_pos t hpm]
      · have hxk : ¬ ((fun y : ProjListRow => y.project_id == k) x = true) := by
          intro hxe
          have hxe2 : x.project_id = k := beq_iff_eq.mp hxe
          refine h.1 ?_
          rw [hxe2, ← hk]
          exact List.mem_map.mpr ⟨m, hmt, rfl⟩
        rw [List.find?_cons_of_neg t hxk]
        exact ih h.2 hmt

theorem simplifyGeom_project_id (s : ℚ → PGeom → PGeom) (f : ProjFeature) :
    (simplifyGeom s f).project_id = f.project_id := rfl

theorem simplifyGeom_geometry (s : ℚ → PGeom → PGeom) (f : ProjFeature) :
    (simplifyGeom s f).geometry = s SIMPLIFY_TOL f.geometry := rfl

theorem dissolveFeature_project_id (rows : List MergedRow) (k : String) :
    (dissolveFeature rows k).project_id = k := rfl

theorem mkCustomFeature_project_id (r : MergedRow) :
    (mkCustomFeature r).project_id = r.project_id := rfl

/-! ### Sample data for concrete evaluations -/

/-- A sample city parcel with key `A1`. -/
def parcelA : Parcel :=
  ⟨"A1", some "100 Main St", some "sdat-a1", [(0, 0), (1, 0), (0, 1)]⟩

/-- A sample city parcel with key `B2`. -/
def parcelB : Parcel := ⟨"B2", none, none, [(2, 0), (3, 0), (3, 1)]⟩

/-- A sample city parcel whose key collides with two assignment rows in the
`c1` counterexample. -/
def parcelDup : Parcel := ⟨"D1", none, none, [(0, 0), (1, 0), (0, 1)]⟩

/-- An assignment row mapping parcel `D1` to project `P1`. -/
def asgnD1 : ProjRow := ⟨"D1", "P1", none, none, none, none⟩

/-- A second assignment row mapping the same parcel `D1` to project `P2`. -/
def asgnD2 : ProjRow := ⟨"D1", "P2", none, none, none, none⟩

/-- A sample reconciled non-custom row of project `P1`. -/
def rowA : MergedRow :=
  ⟨"A1", some "100 Main St", some "sdat-a1", [(0, 0), (1, 0), (0, 1)],
   "A1", "P1", some "Under Construction", none, some "Alpha", some "link-p1"⟩

/-- A second sample reconciled non-custom row of project `P1`, with null
status and name. -/
def rowB : MergedRow :=
  ⟨"B2", none, none, [(2, 0), (3, 0), (3, 1)],
   "B2", "P1", none, some "2025", none, none⟩

/-- A sample reconciled custom row (key ends in `CUST`). -/
def rowCust : MergedRow :=
  ⟨"900CUST", none, none, [(5, 5), (6, 5), (6, 6)],
   "900CUST", "P2", some "Under Construction", none, some "Custom", none⟩

/-- A sample reconciled custom row whose status matches neither split
filter. -/
def rowPlanned : MergedRow :=
  ⟨"901CUST", none, none, [(7, 7), (8, 7), (8, 8)],
   "901CUST", "P3", some "Planned", none, some "Gamma", none⟩

/-- A sample simplification function that collapses every geometry to an
empty polygon. -/
def simpDrop : ℚ → PGeom → PGeom := fun _ _ => PGeom.poly []

/-- The identity simplification function. -/
def simpId : ℚ → PGeom → PGeom := fun _ g => g

/-- The identity reprojection. -/
def idReproject : List Parcel → List Parcel := fun l => l

/-- A sample primary parcel file, already in EPSG:4326. -/
def samplePrimary : RawParcelFile := ⟨some 4326, [parcelA, parcelB]⟩

/-- A sample assignment table for parcels `A1` and `B2`. -/
def sampleTbl : List Assignment :=
  [⟨"A1", "P1", some "Under Construction", none⟩, ⟨"B2", "P1", none, none⟩]

/-- A sample project-metadata table with the single project `P1`. -/
def sampleProjList : List ProjListRow := [⟨"P1", some "Alpha", some "link-p1"⟩]

/-- The parcels `main` loads from the sample primary file. -/
def sampleParcels : List Parcel := normalizeSource idReproject samplePrimary

/-- The project table `main` loads from the sample CSVs. -/
def sampleProjData : List ProjRow := sampleTbl.map (joinMeta sampleProjList)

/-- The pipeline result on the sample inputs. -/
def sampleOut : List ProjFeature × List ProjFeature :=
  build_project_layer simpId (reconcile sampleParcels sampleProjData)

/-! ### Claim theorems -/

/-- C9: when the custom-parcel source is absent (`FileNotFoundError`), the
parcel loader catches the error and returns the citywide parcel set (loaded
and key-normalized) unchanged, without raising; when the primary citywide
source fails to load with any error, `load_parcels` propagates that error and
the run aborts.  (The log line printed in the caught branch is console output,
outside this embedding.) -/
theorem c9_loader_error_handling (reproject : List Parcel → List Parcel)
    (pf : RawParcelFile) (e : LoadError)
    (customSrc : Except LoadError RawParcelFile) :
    load_parcels reproject (Except.ok pf) (Except.error LoadError.fileNotFound)
        = Except.ok (normalizeSource reproject pf) ∧
    load_parcels reproject (Except.error e) customSrc = Except.error e :=
  ⟨rfl, rfl⟩

/-- C10: custom rows are never grouped.  In the combined per-project layer,
the number of features carrying a given `project_id` is one for the dissolved
group of non-custom rows with that id (when any exist) plus one per custom
row with that id: two custom rows sharing a `project_id` yield two features,
possibly alongside the dissolved feature for the same id, so the
one-feature-per-`project_id` guarantee holds only within the non-custom
dissolve path. -/
theorem c10_custom_rows_not_grouped (simplify : ℚ → PGeom → PGeom)
    (merged : List MergedRow) (p : String) :
    (combinedLayer simplify merged).countP (fun f => f.project_id == p) =
      (if p ∈ (nonCustomRows merged).map (fun r => r.project_id) then 1 else 0)
        + (customRows merged).countP (fun r => r.project_id == p) := by
  unfold combinedLayer
  rw [List.countP_append]
  have h1 : ((dissolveByProject (nonCustomRows merged)).map
        (simplifyGeom simplify)).countP (fun f => f.project_id == p)
      = (projectKeys (nonCustomRows merged)).countP (fun k => k == p) := by
    unfold dissolveByProject
    rw [List.countP_map, List.countP_map]
    rfl
  have h2 : ((customRows merged).map mkCustomFeature).countP
        (fun f => f.project_id == p)
      = (customRows merged).countP (fun r => r.project_id == p) := by
    rw [List.countP_map]
    rfl
  rw [h1, h2, countP_eq_ite_of_nodup _ _ (nodup_projectKeys _)]
  simp only [mem_projectKeys]

/-- C7: the status/year split of the combined per-project layer is exact.
The Under-Construction output holds exactly the combined features with
status `"Under Construction"`; the Completed-2025 output holds exactly those
with status `"Completed"` and completed year rendering to `"2025"`; the two
outputs are disjoint; and a combined feature matching neither filter (such as
status `"Planned"` or a null status) appears in neither output. -/
theorem c7_status_year_split (simplify : ℚ → PGeom → PGeom)
    (merged : List MergedRow) (f : ProjFeature) :
    (f ∈ (build_project_layer simplify merged).1 ↔
      f ∈ combinedLayer simplify merged ∧
        f.project_status = some "Under Construction") ∧
    (f ∈ (build_project_layer simplify merged).2 ↔
      f ∈ combinedLayer simplify merged ∧
        f.project_status = some "Completed" ∧
        optYearStr f.completed_year = "2025") ∧
    (¬ (f ∈ (build_project_layer simplify merged).1 ∧
        f ∈ (build_project_layer simplify merged).2)) ∧
    (f ∈ combinedLayer simplify merged →
      f.project_status ≠ some "Under Construction" →
      ¬ (f.project_status = some "Completed" ∧
          optYearStr f.completed_year = "2025") →
      f ∉ (build_project_layer simplify merged).1 ∧
      f ∉ (build_project_layer simplify merged).2) := by
  have huc : f ∈ (build_project_layer simplify merged).1 ↔
      f ∈ combinedLayer simplify merged ∧
        f.project_status = some "Under Construction" := by
    unfold build_project_layer
    rw [List.mem_filter]
    unfold isUnderConstruction
    rw [beq_iff_eq]
  have hc25 : f ∈ (build_project_layer simplify merged).2 ↔
      f ∈ combinedLayer simplify merged ∧
        f.project_status = some "Completed" ∧
        optYearStr f.completed_year = "2025" := by
    unfold build_project_layer
    rw [List.mem_filter]
    unfold isCompleted2025
    rw [Bool.and_eq_true, beq_iff_eq, beq_iff_eq]
  refine ⟨huc, hc25, ?_, ?_⟩
  · rintro ⟨h1, h2⟩
    have s1 := (huc.mp h1).2
    have s2 := (hc25.mp h2).2.1
    rw [s1] at s2
    have : ("Under Construction" : String) ≠ "Completed" := by decide
    exact this (Option.some.injEq _ _ ▸ s2)
  · intro _ hs1 hs2
    constructor
    · intro hin
      exact hs1 (huc.mp hin).2
    · intro hin
      exact hs2 (hc25.mp hin).2

/-- C7 witness: on a concrete run whose single custom row has status
`"Planned"`, that feature matches neither filter and is absent from both
written outputs. -/
theorem c7_status_year_split_witness :
    mkCustomFeature rowPlanned ∉ (build_project_layer simpId [rowPlanned]).1 ∧
    mkCustomFeature rowPlanned ∉ (build_project_layer simpId [rowPlanned]).2 :=
  (c7_status_year_split simpId [rowPlanned] (mkCustomFeature rowPlanned)).2.2.2
    (by decide) (by decide) (by decide)

/-- C8: the project-table loader's left join raises exactly when some
`project_id` occurs more than once in the metadata table (the `validate="m:1"`
check); otherwise every assignment row is kept — joined to its unique
metadata match when one exists, and with null metadata fields when its
`project_id` has no match. -/
theorem c8_metadata_left_join (parcels_tbl : List Assignment)
    (proj_list : List ProjListRow) :
    ((∃ e, load_projects_table parcels_tbl proj_list = Except.error e) ↔
      ¬ (proj_list.map (fun m => m.project_id)).Nodup) ∧
    (¬ (proj_list.map (fun m => m.project_id)).Nodup ↔
      ∃ k, 2 ≤ (proj_list.map (fun m => m.project_id)).count k) ∧
    ((proj_list.map (fun m => m.project_id)).Nodup →
      load_projects_table parcels_tbl proj_list =
        Except.ok (parcels_tbl.map (joinMeta proj_list)) ∧
      (parcels_tbl.map (joinMeta proj_list)).length = parcels_tbl.length ∧
      (∀ a ∈ parcels_tbl,
        (joinMeta proj_list a).parcel_id = a.parcel_id ∧
        (joinMeta proj_list a).project_id = a.project_id ∧
        ((∀ m ∈ proj_list, m.project_id ≠ a.project_id) →
          (joinMeta proj_list a).project_name = none ∧
          (joinMeta proj_list a).project_link = none) ∧
        (∀ m ∈ proj_list, m.project_id = a.project_id →
          (joinMeta proj_list a).project_name = m.project_name ∧
          (joinMeta proj_list a).project_link = m.project_link))) := by
  refine ⟨?_, ?_, ?_⟩
  · by_cases hnd : (proj_list.map (fun m => m.project_id)).Nodup
    · simp [load_projects_table, hnd]
    · simp [load_projects_table, hnd]
  · rw [List.nodup_iff_count_le_one, not_forall]
    constructor
    · rintro ⟨k, hk⟩
      exact ⟨k, by omega⟩
    · rintro ⟨k, hk⟩
      exact ⟨k, by omega⟩
  · intro hnd
    refine ⟨by simp [load_projects_table, hnd], by simp, ?_⟩
    intro a _
    refine ⟨?_, ?_, ?_, ?_⟩
    · unfold joinMeta
      cases proj_list.find? (fun m => m.project_id == a.project_id) <;> rfl
    · unfold joinMeta
      cases proj_list.find? (fun m => m.project_id == a.project_id) <;> rfl
    · intro hnone
      have hfind : proj_list.find? (fun m => m.project_id == a.project_id)
          = none := by
        rw [List.find?_eq_none]
        intro m hm hbeq
        exact hnone m hm (beq_iff_eq.mp hbeq)
      unfold joinMeta
      rw [hfind]
      exact ⟨rfl, rfl⟩
    · intro m hm hkey
      have hfind := find?_key_of_nodup proj_list m a.project_id hnd hm hkey
      unfold joinMeta
      rw [hfind]
      exact ⟨rfl, rfl⟩

/-- C8 witness: on the sample tables (metadata keys duplicate-free), the
loader succeeds and the stated join facts hold. -/
theorem c8_metadata_left_join_witness :
    load_projects_table sampleTbl sampleProjList =
      Except.ok (sampleTbl.map (joinMeta sampleProjList)) ∧
    (sampleTbl.map (joinMeta sampleProjList)).length = sampleTbl.length ∧
    (∀ a ∈ sampleTbl,
      (joinMeta sampleProjList a).parcel_id = a.parcel_id ∧
      (joinMeta sampleProjList a).project_id = a.project_id ∧
      ((∀ m ∈ sampleProjList, m.project_id ≠ a.project_id) →
        (joinMeta sampleProjList a).project_name = none ∧
        (joinMeta sampleProjList a).project_link = none) ∧
      (∀ m ∈ sampleProjList, m.project_id = a.project_id →
        (joinMeta sampleProjList a).project_name = m.project_name ∧
        (joinMeta sampleProjList a).project_link = m.project_link)) :=
  (c8_metadata_left_join sampleTbl sampleProjList).2.2 (by decide)

/-- C1 counterexample: with one parcel whose key matches two assignment rows
(the assignment side carries duplicate `parcel_id`s), the inner join yields 2
rows, exceeding min(parcel count, assignment count) = 1.  The claimed bound
fails for pandas inner merges when join keys repeat. -/
theorem c1_join_bound_counterexample :
    (reconcile [parcelDup] [asgnD1, asgnD2]).length = 2 ∧
    ¬ ((reconcile [parcelDup] [asgnD1, asgnD2]).length ≤
      min ([parcelDup] : List Parcel).length
        ([asgnD1, asgnD2] : List ProjRow).length) := by
  decide

/-- C1 (amended): the Reconciler inner-joins parcels to the assignment table
on parcel key versus `parcel_id`: every output row's parcel key equals its
assignment's `parcel_id`; a parcel whose key matches no assignment
contributes no output row; and when both the parcel keys and the assignment
`parcel_id`s are duplicate-free, the output row count is at most min(parcel
count, assignment count). -/
theorem c1_reconciler_inner_join (parcels : List Parcel)
    (project_data : List ProjRow) :
    (∀ r ∈ reconcile parcels project_data, r.pin = r.parcel_id) ∧
    (∀ p ∈ parcels, (∀ a ∈ project_data, a.parcel_id ≠ p.pin) →
      ∀ r ∈ reconcile parcels project_data, r.pin ≠ p.pin) ∧
    ((parcels.map (fun p => p.pin)).Nodup →
      (project_data.map (fun a => a.parcel_id)).Nodup →
      (reconcile parcels project_data).length ≤
        min parcels.length project_data.length) := by
  refine ⟨?_, ?_, ?_⟩
  · intro r hr
    rcases mem_reconcile.mp hr with ⟨p, _, a, _, hkey, rfl⟩
    show p.pin = a.parcel_id
    exact hkey.symm
  · intro p _ hnone r hr hcontra
    rcases mem_reconcile.mp hr with ⟨p2, _, a, hain, hkey, rfl⟩
    have hpid : a.parcel_id = p.pin := by
      rw [hkey]
      exact hcontra
    exact hnone a hain hpid
  · intro hp ha
    exact le_min (length_reconcile_le_parcels _ _ ha)
      (length_reconcile_le_assignments _ _ hp)

/-- C1 witness: the min bound of the amended claim on concrete
duplicate-free inputs, discharging both duplicate-freedom hypotheses. -/
theorem c1_reconciler_inner_join_witness :
    (reconcile [parcelA, parcelB] [asgnD1]).length ≤
      min ([parcelA, parcelB] : List Parcel).length
        ([asgnD1] : List ProjRow).length :=
  (c1_reconciler_inner_join [parcelA, parcelB] [asgnD1]).2.2
    (by decide) (by decide)

/-- C2: in the non-custom dissolve path, grouping is by `project_id` with a
single output feature per group key, and each attribute field of that feature
is the first non-null value of the field among the group's rows in encounter
order (the pandas `"first"` aggregation).  These attribute fields are exactly
what the later simplification step leaves untouched, since it only replaces
the geometry. -/
theorem c2_first_non_null_aggregation (merged : List MergedRow) (k : String)
    (f : ProjFeature)
    (hk : k ∈ (nonCustomRows merged).map (fun r => r.project_id))
    (hf : f ∈ dissolveByProject (nonCustomRows merged))
    (hfk : f.project_id = k) :
    (dissolveByProject (nonCustomRows merged)).countP
        (fun g => g.project_id == k) = 1 ∧
    f.project_name = firstSome
      ((groupRows (nonCustomRows merged) k).map (fun r => r.project_name)) ∧
    f.project_link = firstSome
      ((groupRows (nonCustomRows merged) k).map (fun r => r.project_link)) ∧
    f.project_status = firstSome
      ((groupRows (nonCustomRows merged) k).map (fun r => r.project_status)) ∧
    f.completed_year = firstSome
      ((groupRows (nonCustomRows merged) k).map (fun r => r.completed_year)) := by
  have hcount : (dissolveByProject (nonCustomRows merged)).countP
      (fun g => g.project_id == k) = 1 := by
    unfold dissolveByProject
    rw [List.countP_map]
    have heq : ((fun g : ProjFeature => g.project_id == k) ∘
          dissolveFeature (nonCustomRows merged))
        = (fun a => a == k) := rfl
    rw [heq, countP_eq_ite_of_nodup _ _ (nodup_projectKeys _),
      if_pos (mem_projectKeys.mpr hk)]
  unfold dissolveByProject at hf
  rcases List.mem_map.mp hf with ⟨k2, _, rfl⟩
  have hk2 : k2 = k := hfk
  subst hk2
  exact ⟨hcount, rfl, rfl, rfl, rfl⟩

/-- C2 witness: with two non-custom rows of project `P1` (the second carrying
the nulls), the group's single feature takes each field's first non-null
value. -/
theorem c2_first_non_null_aggregation_witness :
    (dissolveByProject (nonCustomRows [rowA, rowB])).countP
        (fun g => g.project_id == "P1") = 1 ∧
    (dissolveFeature (nonCustomRows [rowA, rowB]) "P1").project_name = firstSome
      ((groupRows (nonCustomRows [rowA, rowB]) "P1").map (fun r => r.project_name)) ∧
    (dissolveFeature (nonCustomRows [rowA, rowB]) "P1").project_link = firstSome
      ((groupRows (nonCustomRows [rowA, rowB]) "P1").map (fun r => r.project_link)) ∧
    (dissolveFeature (nonCustomRows [rowA, rowB]) "P1").project_status = firstSome
      ((groupRows (nonCustomRows [rowA, rowB]) "P1").map (fun r => r.project_status)) ∧
    (dissolveFeature (nonCustomRows [rowA, rowB]) "P1").completed_year = firstSome
      ((groupRows (nonCustomRows [rowA, rowB]) "P1").map (fun r => r.completed_year)) :=
  c2_first_non_null_aggregation [rowA, rowB] "P1"
    (dissolveFeature (nonCustomRows [rowA, rowB]) "P1")
    (by decide) (by decide) (by decide)

/-- C3: each feature of the non-custom dissolve path carries, before the
final simplification step, the convex hull of the union of its group's parcel
geometries; the interpreted hull region is a convex (hence single,
simply-connected, never multi-part) subset of the plane and contains,
boundary inclusive, every vertex of every constituent parcel geometry. -/
theorem c3_convex_hull_encloses (merged : List MergedRow) (f : ProjFeature)
    (r : MergedRow) (v : Pt)
    (hf : f ∈ dissolveByProject (nonCustomRows merged))
    (hr : r ∈ groupRows (nonCustomRows merged) f.project_id)
    (hv : v ∈ r.geometry) :
    f.geometry = PGeom.hull
      ((groupRows (nonCustomRows merged) f.project_id).map (fun q => q.geometry)) ∧
    Convex ℝ (hullRegion
      ((groupRows (nonCustomRows merged) f.project_id).map (fun q => q.geometry))) ∧
    ptR v ∈ hullRegion
      ((groupRows (nonCustomRows merged) f.project_id).map (fun q => q.geometry)) := by
  unfold dissolveByProject at hf
  rcases List.mem_map.mp hf with ⟨k, _, rfl⟩
  refine ⟨rfl, convex_convexHull ℝ _, ?_⟩
  refine subset_convexHull ℝ _ ?_
  exact ⟨r.geometry, List.mem_map.mpr ⟨r, hr, rfl⟩, v, hv, rfl⟩

/-- C3 witness: on the two-parcel group of project `P1`, the vertex (0, 0) of
the first parcel lies in the group's convex-hull region. -/
theorem c3_convex_hull_encloses_witness :
    (dissolveFeature (nonCustomRows [rowA, rowB]) "P1").geometry = PGeom.hull
      ((groupRows (nonCustomRows [rowA, rowB])
        (dissolveFeature (nonCustomRows [rowA, rowB]) "P1").project_id).map
          (fun q => q.geometry)) ∧
    Convex ℝ (hullRegion
      ((groupRows (nonCustomRows [rowA, rowB])
        (dissolveFeature (nonCustomRows [rowA, rowB]) "P1").project_id).map
          (fun q => q.geometry))) ∧
    ptR ((0 : ℚ), (0 : ℚ)) ∈ hullRegion
      ((groupRows (nonCustomRows [rowA, rowB])
        (dissolveFeature (nonCustomRows [rowA, rowB]) "P1").project_id).map
          (fun q => q.geometry)) :=
  c3_convex_hull_encloses [rowA, rowB]
    (dissolveFeature (nonCustomRows [rowA, rowB]) "P1") rowA ((0 : ℚ), (0 : ℚ))
    (by decide) (by decide) (by decide)

/-- C4: a reconciled row whose key ends with the `CUST` marker bypasses the
dissolve/convex-hull path entirely.  The combined layer places the custom
features after all dissolved non-custom features, and each custom feature's
geometry is exactly the row's input polygon: no dissolve, no hull (and in
fact not even the simplify call) is applied on this path. -/
theorem c4_custom_path_bypass (simplify : ℚ → PGeom → PGeom)
    (merged : List MergedRow) (r : MergedRow)
    (hr : r ∈ merged) (hc : isCustomRow r = true) :
    ((combinedLayer simplify merged).drop
        (dissolveByProject (nonCustomRows merged)).length
      = (customRows merged).map mkCustomFeature) ∧
    mkCustomFeature r ∈ combinedLayer simplify merged ∧
    (mkCustomFeature r).geometry = PGeom.poly r.geometry := by
  refine ⟨?_, ?_, rfl⟩
  · unfold combinedLayer
    have hlen : (dissolveByProject (nonCustomRows merged)).length
        = ((dissolveByProject (nonCustomRows merged)).map
            (simplifyGeom simplify)).length :=
      (List.length_map _ _).symm
    rw [hlen]
    exact List.drop_left _ _
  · unfold combinedLayer
    refine List.mem_append.mpr (Or.inr ?_)
    exact List.mem_map.mpr ⟨r, List.mem_filter.mpr ⟨hr, hc⟩, rfl⟩

/-- C4 witness: with a collapsing simplification function, the concrete
custom row still reaches the combined layer with its input polygon intact,
after the dissolved features. -/
theorem c4_custom_path_bypass_witness :
    ((combinedLayer simpDrop [rowA, rowCust]).drop
        (dissolveByProject (nonCustomRows [rowA, rowCust])).length
      = (customRows [rowA, rowCust]).map mkCustomFeature) ∧
    mkCustomFeature rowCust ∈ combinedLayer simpDrop [rowA, rowCust] ∧
    (mkCustomFeature rowCust).geometry = PGeom.poly rowCust.geometry :=
  c4_custom_path_bypass simpDrop [rowA, rowCust] rowCust (by decide) (by decide)

/-- C5 counterexample: instantiating the simplification parameter with a
function that changes every geometry, a custom-path feature is written with
its original polygon rather than the result of simplifying it with
`SIMPLIFY_TOL`: the script's simplify call is applied to `gdf_non_custom`
only, so not every written polygon has been simplified. -/
theorem c5_simplify_counterexample :
    (build_project_layer simpDrop [rowCust]).1 = [mkCustomFeature rowCust] ∧
    (mkCustomFeature rowCust).geometry = PGeom.poly rowCust.geometry ∧
    simpDrop SIMPLIFY_TOL (PGeom.poly rowCust.geometry)
      ≠ PGeom.poly rowCust.geometry := by
  decide

/-- C5 (amended): every feature written to either output layer is either a
dissolved non-custom feature, whose geometry is the convex hull of its
group's geometries passed through `simplify SIMPLIFY_TOL` (topology-preserving
simplification at the fixed tolerance), or a custom-path feature, whose
geometry is its input polygon with no simplification applied. -/
theorem c5_simplification_scope (simplify : ℚ → PGeom → PGeom)
    (merged : List MergedRow) (f : ProjFeature)
    (hf : f ∈ (build_project_layer simplify merged).1 ∨
          f ∈ (build_project_layer simplify merged).2) :
    (∃ k, k ∈ projectKeys (nonCustomRows merged) ∧
      f = simplifyGeom simplify (dissolveFeature (nonCustomRows merged) k) ∧
      f.geometry = simplify SIMPLIFY_TOL (PGeom.hull
        ((groupRows (nonCustomRows merged) k).map (fun r => r.geometry)))) ∨
    (∃ r, r ∈ customRows merged ∧ f = mkCustomFeature r ∧
      f.geometry = PGeom.poly r.geometry) := by
  unfold build_project_layer at hf
  have hcomb : f ∈ combinedLayer simplify merged := by
    rcases hf with h | h
    · exact (List.mem_filter.mp h).1
    · exact (List.mem_filter.mp h).1
  unfold combinedLayer at hcomb
  rcases List.mem_append.mp hcomb with h | h
  · left
    rcases List.mem_map.mp h with ⟨g, hg, rfl⟩
    unfold dissolveByProject at hg
    rcases List.mem_map.mp hg with ⟨k, hk, rfl⟩
    exact ⟨k, hk, rfl, rfl⟩
  · right
    rcases List.mem_map.mp h with ⟨r2, hrc, rfl⟩
    exact ⟨r2, hrc, rfl, rfl⟩

/-- C5 witness: the concrete custom feature in the Under-Construction output
falls into the unsimplified custom branch. -/
theorem c5_simplification_scope_witness :
    (∃ k, k ∈ projectKeys (nonCustomRows [rowCust]) ∧
      mkCustomFeature rowCust =
        simplifyGeom simpId (dissolveFeature (nonCustomRows [rowCust]) k) ∧
      (mkCustomFeature rowCust).geometry = simpId SIMPLIFY_TOL (PGeom.hull
        ((groupRows (nonCustomRows [rowCust]) k).map (fun r => r.geometry)))) ∨
    (∃ r, r ∈ customRows [rowCust] ∧ mkCustomFeature rowCust = mkCustomFeature r ∧
      (mkCustomFeature rowCust).geometry = PGeom.poly r.geometry) :=
  c5_simplification_scope simpId [rowCust] (mkCustomFeature rowCust)
    (Or.inl (by decide))

/-- C6 counterexample: a concrete run with two reconciled parcels emits one
feature in the Under-Construction layer and none in the Completed-2025 layer
— the script's only outputs — so no emitted layer has one row per input
parcel, and no per-parcel layer exists. -/
theorem c6_no_per_parcel_layer_counterexample :
    resultLengths (main idReproject simpId (Except.ok samplePrimary)
        (Except.error LoadError.fileNotFound) sampleTbl sampleProjList)
      = some (1, 0) ∧
    (reconcile sampleParcels sampleProjData).length = 2 := by
  decide

/-- C6 (amended): the pipeline's only outputs are the two per-project layers:
on any successful run, the result is exactly `build_project_layer` applied to
the reconciled rows, i.e. the Under-Construction and Completed-2025 filters
of the combined per-project layer.  No per-parcel layer is produced. -/
theorem c6_outputs_are_project_layers (reproject : List Parcel → List Parcel)
    (simplify : ℚ → PGeom → PGeom)
    (primarySrc customSrc : Except LoadError RawParcelFile)
    (parcels_tbl : List Assignment) (proj_list : List ProjListRow)
    (out : List ProjFeature × List ProjFeature)
    (h : main reproject simplify primarySrc customSrc parcels_tbl proj_list
      = Except.ok out) :
    ∃ parcels project_data,
      load_parcels reproject primarySrc customSrc = Except.ok parcels ∧
      load_projects_table parcels_tbl proj_list = Except.ok project_data ∧
      out = build_project_layer simplify (reconcile parcels project_data) ∧
      out.1 = (combinedLayer simplify (reconcile parcels project_data)).filter
        isUnderConstruction ∧
      out.2 = (combinedLayer simplify (reconcile parcels project_data)).filter
        isCompleted2025 := by
  unfold main at h
  cases hl : load_parcels reproject primarySrc customSrc with
  | error e =>
      rw [hl] at h
      simp [Bind.bind, Except.bind] at h
  | ok parcels =>
      rw [hl] at h
      cases ht : load_projects_table parcels_tbl proj_list with
      | error e =>
          rw [ht] at h
          simp [Bind.bind, Except.bind] at h
      | ok project_data =>
          rw [ht] at h
          simp only [Bind.bind, Except.bind, pure, Except.pure,
            Except.ok.injEq] at h
          refine ⟨parcels, project_data, rfl, rfl, h.symm, ?_, ?_⟩
          · rw [← h]
            rfl
          · rw [← h]
            rfl

/-- C6 witness: the amended statement on the concrete sample run. -/
theorem c6_outputs_are_project_layers_witness :
    ∃ parcels project_data,
      load_parcels idReproject (Except.ok samplePrimary)
        (Except.error LoadError.fileNotFound) = Except.ok parcels ∧
      load_projects_table sampleTbl sampleProjList = Except.ok project_data ∧
      sampleOut = build_project_layer simpId (reconcile parcels project_data) ∧
      sampleOut.1 = (combinedLayer simpId (reconcile parcels project_data)).filter
        isUnderConstruction ∧
      sampleOut.2 = (combinedLayer simpId (reconcile parcels project_data)).filter
        isCompleted2025 :=
  c6_outputs_are_project_layers idReproject simpId (Except.ok samplePrimary)
    (Except.error LoadError.fileNotFound) sampleTbl sampleProjList sampleOut rfl

end BuildLayers
